import Mathlib

/-!
A shallow embedding of `utils_nlp/bert/common_ner.py` and proofs about its
preprocessing routines.  The external BERT tokenizer is abstracted by a pair
of functions (`wordpiece` splitting and vocabulary lookup); everything else is
translated line by line from the Python source.
-/

set_option autoImplicit false

namespace CommonNer

universe u

/-- `BERT_MAX_LEN = 512`, the module-level maximum supported sequence length. -/
def BERT_MAX_LEN : Nat := 512

/-- Models Python `str.lower` on a single ASCII character. -/
def pyLowerChar (c : Char) : Char :=
  if 'A' ≤ c ∧ c ≤ 'Z' then Char.ofNat (c.toNat + 32) else c

/-- Models Python `str.lower` (ASCII range). -/
def pyLower (s : String) : String :=
  String.mk (s.toList.map pyLowerChar)

/-- Helper for `pySplit`: walks the character list accumulating the current
maximal run of non-whitespace characters (in reverse). -/
def splitWsAux : List Char → List Char → List String
  | [], acc => if acc.isEmpty then [] else [String.mk acc.reverse]
  | c :: cs, acc =>
    if c.isWhitespace then
      if acc.isEmpty then splitWsAux cs []
      else String.mk acc.reverse :: splitWsAux cs []
    else splitWsAux cs (c :: acc)

/-- Models Python `str.split()` with no argument: split on runs of
whitespace, discarding empty fragments. -/
def pySplit (s : String) : List String :=
  splitWsAux s.toList []

/-- Models Python iteration over a string: yields its characters, each as a
one-character string (Python has no separate character type). -/
def pyStrIter (s : String) : List String :=
  s.toList.map Char.toString

/-- Models the Python slice `xs[0:n]` where `n` may be negative: a negative
`n` counts from the end of the list. -/
def pySlice0 {α : Type u} (n : Int) (xs : List α) : List α :=
  if 0 ≤ n then xs.take n.toNat else xs.take (xs.length - (-n).toNat)

/-- The external BERT tokenizer, abstracted: `wordpiece` is
`tokenizer.wordpiece_tokenizer.tokenize` (word to sub-word pieces) and
`vocab` is the per-token vocabulary lookup underlying
`tokenizer.convert_tokens_to_ids`. -/
structure Tokenizer where
  wordpiece : String → List String
  vocab : String → Nat

/-- The clamp applied by both preprocessors:
`if max_len > BERT_MAX_LEN: max_len = BERT_MAX_LEN`. -/
def clampMaxLen (n : Nat) : Nat :=
  if n > BERT_MAX_LEN then BERT_MAX_LEN else n

/-- One row of `preprocess_classification_tokens` before padding:
`["[CLS]"] + x[0 : max_len - 2] + ["[SEP]"]` (Python slice semantics),
mapped through the vocabulary. -/
def classIds (tk : Tokenizer) (M : Nat) (x : List String) : List Nat :=
  (["[CLS]"] ++ pySlice0 ((M : Int) - 2) x ++ ["[SEP]"]).map tk.vocab

/-- One row of `preprocess_classification_tokens` after padding:
`x + [0] * (max_len - len(x))`. -/
def classPaddedIds (tk : Tokenizer) (M : Nat) (x : List String) : List Nat :=
  classIds tk M x ++ List.replicate (M - (classIds tk M x).length) 0

/-- The body of `Tokenizer.preprocess_classification_tokens` after the
max-length clamp has produced `M`. -/
def classCore (tk : Tokenizer) (tokens : List (List String)) (M : Nat) :
    List (List Nat) × List (List Nat) :=
  (tokens.map (classPaddedIds tk M),
   (tokens.map (classPaddedIds tk M)).map (fun y => y.map (fun x => min 1 x)))

/-- `Tokenizer.preprocess_classification_tokens`: clamp the requested maximum
length, add sentence markers, truncate, convert to ids, pad with 0 and build
the input mask `min(1, id)`. -/
def preprocess_classification_tokens (tk : Tokenizer)
    (tokens : List (List String)) (max_len : Nat) :
    List (List Nat) × List (List Nat) :=
  classCore tk tokens (clampMaxLen max_len)

/-- The inner loop of `preprocess_ner_tokens` for a single word: the first
sub-word piece keeps the word's `tag`, after which the loop variable is
overwritten with `trailing_piece_tag` (modelled by passing `tr` as the tag
for the remaining pieces). -/
def wordPieceLabels (tr : String) : String → List String → List String
  | _, [] => []
  | tag, _ :: rest => tag :: wordPieceLabels tr tr rest

/-- The flat token list accumulated by the per-line loop of
`preprocess_ner_tokens`: the concatenation of each word's sub-word pieces. -/
def lineTokens (wp : String → List String) : List (String × String) → List String
  | [] => []
  | p :: ps => wp p.1 ++ lineTokens wp ps

/-- The flat label list accumulated by the per-line loop of
`preprocess_ner_tokens`. -/
def lineLabels (wp : String → List String) (tr : String) :
    List (String × String) → List String
  | [] => []
  | p :: ps => wordPieceLabels tr p.2 (wp p.1) ++ lineLabels wp tr ps

/-- `zip(text_lower.split(), t_labels)` for one line: the line is lower-cased,
split on whitespace, and zipped with the line's labels (Python `zip`
truncates to the shorter argument). -/
def nerPairs (t : String) (tls : List String) : List (String × String) :=
  (pySplit (pyLower t)).zip tls

/-- The flat per-line token list before truncation. -/
def nerTokens0 (tk : Tokenizer) (t : String) (tls : List String) : List String :=
  lineTokens tk.wordpiece (nerPairs t tls)

/-- The flat per-line label list before truncation. -/
def nerLabels0 (tk : Tokenizer) (tr t : String) (tls : List String) : List String :=
  lineLabels tk.wordpiece tr (nerPairs t tls)

/-- `if len(tokens) > max_seq_length: tokens = tokens[:max_seq_length]`. -/
def nerTokens (tk : Tokenizer) (M : Nat) (t : String) (tls : List String) :
    List String :=
  if (nerTokens0 tk t tls).length > M then (nerTokens0 tk t tls).take M
  else nerTokens0 tk t tls

/-- The matching truncation of the per-line labels (same guard on the token
count). -/
def nerLabelsTrunc (tk : Tokenizer) (M : Nat) (tr t : String)
    (tls : List String) : List String :=
  if (nerTokens0 tk t tls).length > M then (nerLabels0 tk tr t tls).take M
  else nerLabels0 tk tr t tls

/-- `input_ids = self.tokenizer.convert_tokens_to_ids(tokens)`. -/
def nerIds0 (tk : Tokenizer) (M : Nat) (t : String) (tls : List String) :
    List Nat :=
  (nerTokens tk M t tls).map tk.vocab

/-- The padding amount `max_seq_length - len(input_ids)`. -/
def nerPadN (tk : Tokenizer) (M : Nat) (t : String) (tls : List String) : Nat :=
  M - (nerIds0 tk M t tls).length

/-- `input_ids += padding`. -/
def nerPaddedIds (tk : Tokenizer) (M : Nat) (t : String) (tls : List String) :
    List Nat :=
  nerIds0 tk M t tls ++ List.replicate (nerPadN tk M t tls) 0

/-- `input_mask = [1.0] * len(input_ids)` followed by `input_mask += padding`. -/
def nerPaddedMask (tk : Tokenizer) (M : Nat) (t : String) (tls : List String) :
    List Nat :=
  List.replicate (nerIds0 tk M t tls).length 1
    ++ List.replicate (nerPadN tk M t tls) 0

/-- `new_labels += label_padding` where `label_padding` is the literal tag
`"O"` repeated `max_seq_length - len(input_ids)` times. -/
def nerPaddedLabels (tk : Tokenizer) (M : Nat) (tr t : String)
    (tls : List String) : List String :=
  nerLabelsTrunc tk M tr t tls ++ List.replicate (nerPadN tk M t tls) "O"

/-- The per-line trailing-token mask:
`[True if label != trailing_piece_tag else False for label in new_labels]`. -/
def nerTrailMask (tk : Tokenizer) (M : Nat) (tr t : String)
    (tls : List String) : List Bool :=
  (nerPaddedLabels tk M tr t tls).map
    (fun label => if label ≠ tr then true else false)

/-- `[label_map[label] for label in new_labels]`, made fallible: a missing
key yields `none` (Python raises `KeyError`). -/
def lookupAll (m : List (String × Nat)) : List String → Option (List Nat)
  | [] => some []
  | l :: ls =>
    match m.lookup l, lookupAll m ls with
    | some v, some vs => some (v :: vs)
    | _, _ => none

/-- `if label_map: label_ids = [label_map[label] for label in new_labels]
else: label_ids = new_labels`.  The label map is modelled as an association
list; Python dict truthiness makes an empty map behave like `None`. -/
def labelIdsOf (lmap : Option (List (String × Nat))) (nl : List String) :
    Option (List String ⊕ List Nat) :=
  match lmap with
  | none => some (Sum.inl nl)
  | some m =>
    if m.isEmpty then some (Sum.inl nl)
    else (lookupAll m nl).map Sum.inr

/-- The per-line quadruple appended to the accumulator lists of
`preprocess_ner_tokens`. -/
structure NerRow where
  input_ids : List Nat
  input_mask : List Nat
  trailing_mask : List Bool
  label_ids : List String ⊕ List Nat
deriving DecidableEq

/-- One iteration of the main loop of `preprocess_ner_tokens`, for one
`(t, t_labels)` pair; `none` models a `KeyError` from the label map. -/
def processNerLine (tk : Tokenizer) (M : Nat) (tr : String)
    (lmap : Option (List (String × Nat))) (t : String) (tls : List String) :
    Option NerRow :=
  match labelIdsOf lmap (nerPaddedLabels tk M tr t tls) with
  | some labs =>
    some ⟨nerPaddedIds tk M t tls, nerPaddedMask tk M t tls,
          nerTrailMask tk M tr t tls, labs⟩
  | none => none

/-- The whole `for t, t_labels in zip(text, labels)` loop. -/
def processAllLines (tk : Tokenizer) (M : Nat) (tr : String)
    (lmap : Option (List (String × Nat))) :
    List (String × List String) → Option (List NerRow)
  | [] => some []
  | p :: ps =>
    match processNerLine tk M tr lmap p.1 p.2,
          processAllLines tk M tr lmap ps with
    | some r, some rs => some (r :: rs)
    | _, _ => none

/-- The value returned by `preprocess_ner_tokens`: a 4-tuple when the caller
supplied `labels`, a 3-tuple otherwise. -/
inductive NerResult where
  | withLabels (ids mask : List (List Nat)) (trail : List (List Bool))
      (labs : List (List String ⊕ List Nat))
  | noLabels (ids mask : List (List Nat)) (trail : List (List Bool))
deriving DecidableEq

/-- The `input_ids_all` component of the result. -/
def NerResult.idsAll : NerResult → List (List Nat)
  | .withLabels ids _ _ _ => ids
  | .noLabels ids _ _ => ids

/-- The `input_mask_all` component of the result. -/
def NerResult.maskAll : NerResult → List (List Nat)
  | .withLabels _ mask _ _ => mask
  | .noLabels _ mask _ => mask

/-- The `trailing_token_mask_all` component of the result. -/
def NerResult.trailAll : NerResult → List (List Bool)
  | .withLabels _ _ trail _ => trail
  | .noLabels _ _ trail => trail

/-- The `label_ids_all` component of the result; empty when the function
returned a 3-tuple. -/
def NerResult.labelsAll : NerResult → List (List String ⊕ List Nat)
  | .withLabels _ _ _ labs => labs
  | .noLabels _ _ _ => []

/-- Whether the result is the 4-tuple form. -/
def NerResult.hasLabels : NerResult → Bool
  | .withLabels _ _ _ _ => true
  | .noLabels _ _ _ => false

/-- The per-line label iterables the loop runs over.  When `labels` is
`None`, the source sets `labels = ["O"] * len(text)` — one copy of the
STRING `"O"` per line — and each line's `t_labels` is then iterated
character-wise by `zip`, yielding the single tag `"O"`. -/
def nerLabelLists (text : List String)
    (labels : Option (List (List String))) : List (List String) :=
  match labels with
  | some ls => ls
  | none => (List.replicate text.length "O").map pyStrIter

/-- `Tokenizer.preprocess_ner_tokens`.  `none` models an uncaught `KeyError`
raised by the label-map lookup. -/
def preprocess_ner_tokens (tk : Tokenizer) (text : List String)
    (max_seq_length : Nat) (labels : Option (List (List String)))
    (label_map : Option (List (String × Nat))) (trailing_piece_tag : String) :
    Option NerResult :=
  match processAllLines tk (clampMaxLen max_seq_length) trailing_piece_tag
      label_map (text.zip (nerLabelLists text labels)) with
  | none => none
  | some rows =>
    if labels.isSome then
      some (NerResult.withLabels (rows.map NerRow.input_ids)
        (rows.map NerRow.input_mask) (rows.map NerRow.trailing_mask)
        (rows.map NerRow.label_ids))
    else
      some (NerResult.noLabels (rows.map NerRow.input_ids)
        (rows.map NerRow.input_mask) (rows.map NerRow.trailing_mask))

/-- A PyTorch module, abstracted to what `parallelize_model` inspects: either
a base module or a `nn.DataParallel` wrapper with its device ids. -/
inductive TorchModule where
  | base (id : Nat)
  | dataParallel (m : TorchModule) (device_ids : List Nat)
deriving DecidableEq

/-- `parallelize_model`: return the model unchanged when fewer than two
devices are requested, wrap a not-yet-wrapped model in `DataParallel` with
`device_ids=list(range(num_devices))`, and leave an already-wrapped model
alone. -/
def parallelize_model (model : TorchModule) (num_devices : Int) : TorchModule :=
  if num_devices < 2 then model
  else
    match model with
    | TorchModule.dataParallel m ids => TorchModule.dataParallel m ids
    | TorchModule.base i =>
      TorchModule.dataParallel (TorchModule.base i)
        (List.range num_devices.toNat)

/-- The sampler chosen by `create_data_loader`. -/
inductive Sampler where
  | random
  | sequential
  | distributed
deriving DecidableEq

/-- `TensorDataset(...)`: the tuple of tensors zipped by the dataset. -/
structure TensorDatasetT where
  tensors : List (List (List Nat))
deriving DecidableEq

/-- `DataLoader(tensor_data, sampler=sampler, batch_size=batch_size)`: the
batching view over the dataset. -/
structure DataLoaderT where
  dataset : TensorDatasetT
  sampler : Sampler
  batch_size : Nat
deriving DecidableEq

/-- The `ValueError` message raised for an unknown `sample_method`. -/
def invalidSampleMethodMsg : String :=
  "Invalid sample_method value, accepted values are: random, sequential, and distributed"

/-- `create_data_loader`: build the tensor dataset (two tensors, or three
when `label_ids` is truthy), resolve the sampler from `sample_method` —
raising `ValueError` for an unknown name before the `DataLoader` is built —
and wrap everything in a `DataLoader`. -/
def create_data_loader (input_ids input_mask : List (List Nat))
    (label_ids : Option (List (List Nat))) (sample_method : String)
    (batch_size : Nat) : Except String DataLoaderT :=
  let tensor_data : TensorDatasetT :=
    match label_ids with
    | some l =>
      if l.isEmpty then ⟨[input_ids, input_mask]⟩
      else ⟨[input_ids, input_mask, l]⟩
    | none => ⟨[input_ids, input_mask]⟩
  if sample_method = "random" then
    Except.ok ⟨tensor_data, Sampler.random, batch_size⟩
  else if sample_method = "sequential" then
    Except.ok ⟨tensor_data, Sampler.sequential, batch_size⟩
  else if sample_method = "distributed" then
    Except.ok ⟨tensor_data, Sampler.distributed, batch_size⟩
  else
    Except.error invalidSampleMethodMsg

/-- Length of a per-line label sequence, whichever side of the string/id sum
it lives on. -/
def sumLen : List String ⊕ List Nat → Nat
  | Sum.inl l => l.length
  | Sum.inr l => l.length

/-- Modelled from the spec (section 4.2), for comparison with the code's
`classPaddedIds`: "prepend a start marker, truncate the body to
(max_len − 2) tokens, append an end marker, map tokens to numeric ids via an
external vocabulary lookup, right-pad with 0 up to max_len". -/
def specClassificationRow (tk : Tokenizer) (M : Nat) (x : List String) :
    List Nat :=
  ((["[CLS]"] ++ x.take (M - 2) ++ ["[SEP]"]).map tk.vocab)
    ++ List.replicate
        (M - ((["[CLS]"] ++ x.take (M - 2) ++ ["[SEP]"]).map tk.vocab).length) 0

/-- A concrete tokenizer whose word-piece splitter is the identity; used to
evaluate the routines on concrete inputs. -/
def tkId : Tokenizer :=
  ⟨fun w => [w],
   fun w => if w = "hello" then 1 else if w = "world" then 2 else 0⟩

/-- The tokenizer of the spec's scenario: "playing" splits into
`["play", "##ing"]`, every other word is a single piece. -/
def tkScenario : Tokenizer :=
  ⟨fun w => if w = "playing" then ["play", "##ing"] else [w], fun _ => 5⟩

/-- A concrete tokenizer with distinct vocabulary ids for the classification
preprocessor. -/
def tkCls : Tokenizer :=
  ⟨fun w => [w],
   fun s =>
    if s = "[CLS]" then 101
    else if s = "[SEP]" then 102
    else if s = "a" then 7
    else if s = "b" then 8
    else if s = "c" then 9
    else 0⟩

/-! ## Helper lemmas -/

theorem wordPieceLabels_length (tr tag : String) (sw : List String) :
    (wordPieceLabels tr tag sw).length = sw.length := by
  induction sw generalizing tag with
  | nil => rfl
  | cons s rest ih => simp [wordPieceLabels, ih]

theorem wordPieceLabels_self (tr : String) (l : List String) :
    wordPieceLabels tr tr l = List.replicate l.length tr := by
  induction l with
  | nil => rfl
  | cons a as ih => simp [wordPieceLabels, ih, List.replicate_succ]

theorem wordPieceLabels_cons (tr tag s : String) (rest : List String) :
    wordPieceLabels tr tag (s :: rest) = tag :: List.replicate rest.length tr := by
  simp [wordPieceLabels, wordPieceLabels_self]

theorem lineLabels_length (wp : String → List String) (tr : String)
    (ps : List (String × String)) :
    (lineLabels wp tr ps).length = (lineTokens wp ps).length := by
  induction ps with
  | nil => rfl
  | cons p ps ih => simp [lineLabels, lineTokens, wordPieceLabels_length, ih]

theorem nerTokens_length (tk : Tokenizer) (M : Nat) (t : String)
    (tls : List String) :
    (nerTokens tk M t tls).length = min M (nerTokens0 tk t tls).length := by
  unfold nerTokens
  split
  · simp [List.length_take]
  · omega

theorem nerLabelsTrunc_length (tk : Tokenizer) (M : Nat) (tr t : String)
    (tls : List String) :
    (nerLabelsTrunc tk M tr t tls).length = min M (nerTokens0 tk t tls).length := by
  have h := lineLabels_length tk.wordpiece tr (nerPairs t tls)
  unfold nerLabelsTrunc nerLabels0 nerTokens0
  split
  · simp only [List.length_take, h]
  · simp only [h]
    omega

theorem nerIds0_length (tk : Tokenizer) (M : Nat) (t : String)
    (tls : List String) :
    (nerIds0 tk M t tls).length = min M (nerTokens0 tk t tls).length := by
  simp [nerIds0, nerTokens_length]

theorem nerPaddedIds_length (tk : Tokenizer) (M : Nat) (t : String)
    (tls : List String) : (nerPaddedIds tk M t tls).length = M := by
  have h := nerIds0_length tk M t tls
  simp only [nerPaddedIds, nerPadN, List.length_append, List.length_replicate]
  omega

theorem nerPaddedMask_length (tk : Tokenizer) (M : Nat) (t : String)
    (tls : List String) : (nerPaddedMask tk M t tls).length = M := by
  have h := nerIds0_length tk M t tls
  simp only [nerPaddedMask, nerPadN, List.length_append, List.length_replicate]
  omega

theorem nerPaddedLabels_length (tk : Tokenizer) (M : Nat) (tr t : String)
    (tls : List String) : (nerPaddedLabels tk M tr t tls).length = M := by
  have h1 := nerIds0_length tk M t tls
  have h2 := nerLabelsTrunc_length tk M tr t tls
  simp only [nerPaddedLabels, nerPadN, List.length_append, List.length_replicate]
  omega

theorem nerTrailMask_length (tk : Tokenizer) (M : Nat) (tr t : String)
    (tls : List String) : (nerTrailMask tk M tr t tls).length = M := by
  simp [nerTrailMask, nerPaddedLabels_length]

theorem lookupAll_length (m : List (String × Nat)) (ls : List String)
    (vs : List Nat) (h : lookupAll m ls = some vs) : vs.length = ls.length := by
  induction ls generalizing vs with
  | nil => cases h; rfl
  | cons l ls ih =>
    unfold lookupAll at h
    cases h1 : m.lookup l with
    | none => rw [h1] at h; cases h
    | some v =>
      cases h2 : lookupAll m ls with
      | none => rw [h1, h2] at h; cases h
      | some ws =>
        rw [h1, h2] at h
        cases h
        simp [ih ws h2]

theorem labelIdsOf_sumLen (lmap : Option (List (String × Nat)))
    (nl : List String) (out : List String ⊕ List Nat)
    (h : labelIdsOf lmap nl = some out) : sumLen out = nl.length := by
  cases lmap with
  | none =>
    simp only [labelIdsOf] at h
    cases h
    rfl
  | some m =>
    simp only [labelIdsOf] at h
    by_cases hm : m.isEmpty
    · rw [if_pos hm] at h
      cases h
      rfl
    · rw [if_neg hm] at h
      cases h2 : lookupAll m nl with
      | none => rw [h2] at h; cases h
      | some vs =>
        rw [h2] at h
        have h3 : Sum.inr vs = out := by injection h
        subst h3
        simpa [sumLen] using lookupAll_length m nl vs h2

theorem processNerLine_eq_some (tk : Tokenizer) (M : Nat) (tr : String)
    (lmap : Option (List (String × Nat))) (t : String) (tls : List String)
    (row : NerRow) (h : processNerLine tk M tr lmap t tls = some row) :
    row.input_ids = nerPaddedIds tk M t tls ∧
    row.input_mask = nerPaddedMask tk M t tls ∧
    row.trailing_mask = nerTrailMask tk M tr t tls ∧
    labelIdsOf lmap (nerPaddedLabels tk M tr t tls) = some row.label_ids := by
  unfold processNerLine at h
  cases heq : labelIdsOf lmap (nerPaddedLabels tk M tr t tls) with
  | none => rw [heq] at h; cases h
  | some labs =>
    rw [heq] at h
    injection h with h0
    subst h0
    exact ⟨rfl, rfl, rfl, rfl⟩

theorem processNerLine_lengths (tk : Tokenizer) (M : Nat) (tr : String)
    (lmap : Option (List (String × Nat))) (t : String) (tls : List String)
    (row : NerRow) (h : processNerLine tk M tr lmap t tls = some row) :
    row.input_ids.length = M ∧ row.input_mask.length = M ∧
    row.trailing_mask.length = M ∧ sumLen row.label_ids = M := by
  obtain ⟨h1, h2, h3, h4⟩ := processNerLine_eq_some tk M tr lmap t tls row h
  refine ⟨?_, ?_, ?_, ?_⟩
  · rw [h1, nerPaddedIds_length]
  · rw [h2, nerPaddedMask_length]
  · rw [h3, nerTrailMask_length]
  · rw [labelIdsOf_sumLen lmap _ _ h4, nerPaddedLabels_length]

theorem processAllLines_mem (tk : Tokenizer) (M : Nat) (tr : String)
    (lmap : Option (List (String × Nat))) (ps : List (String × List String))
    (rows : List NerRow) (h : processAllLines tk M tr lmap ps = some rows) :
    ∀ row ∈ rows, ∃ p ∈ ps, processNerLine tk M tr lmap p.1 p.2 = some row := by
  induction ps generalizing rows with
  | nil =>
    cases h
    intro row hrow
    cases hrow
  | cons p ps ih =>
    unfold processAllLines at h
    cases h1 : processNerLine tk M tr lmap p.1 p.2 with
    | none => rw [h1] at h; cases h
    | some r =>
      cases h2 : processAllLines tk M tr lmap ps with
      | none => rw [h1, h2] at h; cases h
      | some rs =>
        rw [h1, h2] at h
        cases h
        intro row hrow
        rcases List.mem_cons.1 hrow with hr | hr
        · exact ⟨p, List.mem_cons_self p ps, by rw [hr]; exact h1⟩
        · obtain ⟨q, hq, hq2⟩ := ih rs h2 row hr
          exact ⟨q, List.mem_cons_of_mem p hq, hq2⟩

theorem preprocess_ner_tokens_some (tk : Tokenizer) (text : List String)
    (msl : Nat) (labels : Option (List (List String)))
    (lmap : Option (List (String × Nat))) (tr : String) (r : NerResult)
    (h : preprocess_ner_tokens tk text msl labels lmap tr = some r) :
    ∃ rows, processAllLines tk (clampMaxLen msl) tr lmap
        (text.zip (nerLabelLists text labels)) = some rows ∧
      r.idsAll = rows.map NerRow.input_ids ∧
      r.maskAll = rows.map NerRow.input_mask ∧
      r.trailAll = rows.map NerRow.trailing_mask ∧
      r.labelsAll = (if labels.isSome then rows.map NerRow.label_ids else []) ∧
      r.hasLabels = labels.isSome := by
  unfold preprocess_ner_tokens at h
  cases hp : processAllLines tk (clampMaxLen msl) tr lmap
      (text.zip (nerLabelLists text labels)) with
  | none => rw [hp] at h; cases h
  | some rows =>
    rw [hp] at h
    cases labels with
    | none =>
      simp only [Option.isSome_none, Bool.false_eq_true, if_false] at h ⊢
      cases h
      exact ⟨rows, rfl, rfl, rfl, rfl, rfl, rfl⟩
    | some ls =>
      simp only [Option.isSome_some, if_true] at h ⊢
      cases h
      exact ⟨rows, rfl, rfl, rfl, rfl, rfl, rfl⟩

theorem clampMaxLen_of_gt (n : Nat) (h : n > BERT_MAX_LEN) :
    clampMaxLen n = BERT_MAX_LEN := if_pos h

theorem clampMaxLen_id (n : Nat) (h : ¬ n > BERT_MAX_LEN) :
    clampMaxLen n = n := if_neg h

theorem pySlice0_eq_take {α : Type u} (x : List α) (M : Nat) (h : 2 ≤ M) :
    pySlice0 ((M : Int) - 2) x = x.take (M - 2) := by
  unfold pySlice0
  rw [if_pos (by omega : (0 : Int) ≤ (M : Int) - 2)]
  congr 1
  omega

theorem classIds_length (tk : Tokenizer) (M : Nat) (x : List String)
    (h : 2 ≤ M) :
    (classIds tk M x).length = 2 + min (M - 2) x.length := by
  unfold classIds
  rw [pySlice0_eq_take x M h]
  simp [List.length_append, List.length_take]
  omega

theorem classPaddedIds_length (tk : Tokenizer) (M : Nat) (x : List String)
    (h : 2 ≤ M) : (classPaddedIds tk M x).length = M := by
  have h1 := classIds_length tk M x h
  simp only [classPaddedIds, List.length_append, List.length_replicate]
  omega

theorem classPaddedIds_eq_spec (tk : Tokenizer) (M : Nat) (x : List String)
    (h : 2 ≤ M) : classPaddedIds tk M x = specClassificationRow tk M x := by
  unfold classPaddedIds specClassificationRow classIds
  rw [pySlice0_eq_take x M h]

theorem min_one_eq_one_iff (x : Nat) : min 1 x = 1 ↔ x ≠ 0 := by
  omega

theorem labelIdsOf_emptyMap (nl : List String) :
    labelIdsOf (some []) nl = labelIdsOf none nl := rfl

theorem processNerLine_emptyMap (tk : Tokenizer) (M : Nat) (tr t : String)
    (tls : List String) :
    processNerLine tk M tr (some []) t tls = processNerLine tk M tr none t tls := rfl

theorem processAllLines_emptyMap (tk : Tokenizer) (M : Nat) (tr : String)
    (ps : List (String × List String)) :
    processAllLines tk M tr (some []) ps = processAllLines tk M tr none ps := by
  induction ps with
  | nil => rfl
  | cons p ps ih => simp only [processAllLines, processNerLine_emptyMap, ih]

theorem nerTrailMask_get_iff (tk : Tokenizer) (M : Nat) (tr t : String)
    (tls : List String) (j : Nat) (h1 : j < (nerTrailMask tk M tr t tls).length)
    (h2 : j < (nerPaddedLabels tk M tr t tls).length) :
    (nerTrailMask tk M tr t tls).get ⟨j, h1⟩ = true ↔
      (nerPaddedLabels tk M tr t tls).get ⟨j, h2⟩ ≠ tr := by
  have step : (nerTrailMask tk M tr t tls).get ⟨j, h1⟩ =
      (fun label => if label ≠ tr then true else false)
        ((nerPaddedLabels tk M tr t tls).get ⟨j, h2⟩) := by
    simp only [nerTrailMask, List.get_eq_getElem, List.getElem_map]
  rw [step]
  by_cases hx : (nerPaddedLabels tk M tr t tls).get ⟨j, h2⟩ = tr
  · simp [hx]
  · simp [hx]

theorem nerTrailMask_drop (tk : Tokenizer) (M : Nat) (tr t : String)
    (tls : List String) (h : tr ≠ "O") :
    (nerTrailMask tk M tr t tls).drop (nerIds0 tk M t tls).length
      = List.replicate (nerPadN tk M t tls) true := by
  unfold nerTrailMask nerPaddedLabels
  rw [List.map_append, List.map_replicate]
  have hlen : ((nerLabelsTrunc tk M tr t tls).map
      (fun label => if label ≠ tr then true else false)).length
      = (nerIds0 tk M t tls).length := by
    simp [List.length_map, nerLabelsTrunc_length, nerIds0_length]
  rw [← hlen, List.drop_left]
  have hO : ("O" : String) ≠ tr := Ne.symm h
  rw [if_pos hO]

theorem nerPaddedMask_drop (tk : Tokenizer) (M : Nat) (t : String)
    (tls : List String) :
    (nerPaddedMask tk M t tls).drop (nerIds0 tk M t tls).length
      = List.replicate (nerPadN tk M t tls) 0 := by
  unfold nerPaddedMask
  exact List.drop_left' (List.length_replicate _ _)

theorem ner_output_lengths (tk : Tokenizer) (text : List String) (msl : Nat)
    (labels : Option (List (List String))) (lmap : Option (List (String × Nat)))
    (tr : String) (r : NerResult)
    (h : preprocess_ner_tokens tk text msl labels lmap tr = some r) :
    (∀ row ∈ r.idsAll, row.length = clampMaxLen msl) ∧
    (∀ row ∈ r.maskAll, row.length = clampMaxLen msl) ∧
    (∀ row ∈ r.trailAll, row.length = clampMaxLen msl) ∧
    (∀ ls ∈ r.labelsAll, sumLen ls = clampMaxLen msl) := by
  obtain ⟨rows, hp, hids, hmask, htrail, hlabs, -⟩ :=
    preprocess_ner_tokens_some tk text msl labels lmap tr r h
  have key := processAllLines_mem tk (clampMaxLen msl) tr lmap _ rows hp
  refine ⟨?_, ?_, ?_, ?_⟩
  · rw [hids]
    intro row hrow
    obtain ⟨x, hxmem, hx⟩ := List.mem_map.1 hrow
    obtain ⟨p, -, hline⟩ := key x hxmem
    rw [← hx]
    exact (processNerLine_lengths _ _ _ _ _ _ _ hline).1
  · rw [hmask]
    intro row hrow
    obtain ⟨x, hxmem, hx⟩ := List.mem_map.1 hrow
    obtain ⟨p, -, hline⟩ := key x hxmem
    rw [← hx]
    exact (processNerLine_lengths _ _ _ _ _ _ _ hline).2.1
  · rw [htrail]
    intro row hrow
    obtain ⟨x, hxmem, hx⟩ := List.mem_map.1 hrow
    obtain ⟨p, -, hline⟩ := key x hxmem
    rw [← hx]
    exact (processNerLine_lengths _ _ _ _ _ _ _ hline).2.2.1
  · rw [hlabs]
    split
    · intro ls hls
      obtain ⟨x, hxmem, hx⟩ := List.mem_map.1 hls
      obtain ⟨p, -, hline⟩ := key x hxmem
      rw [← hx]
      exact (processNerLine_lengths _ _ _ _ _ _ _ hline).2.2.2
    · intro ls hls
      cases hls

theorem clampMaxLen_ge_two (n : Nat) (h : 2 ≤ n) : 2 ≤ clampMaxLen n := by
  unfold clampMaxLen BERT_MAX_LEN
  split <;> omega

theorem class_output_lengths (tk : Tokenizer) (toks : List (List String))
    (max_len : Nat) (h : 2 ≤ clampMaxLen max_len) :
    (∀ row ∈ (preprocess_classification_tokens tk toks max_len).1,
      row.length = clampMaxLen max_len) ∧
    (∀ row ∈ (preprocess_classification_tokens tk toks max_len).2,
      row.length = clampMaxLen max_len) := by
  constructor
  · intro row hrow
    simp only [preprocess_classification_tokens, classCore] at hrow
    obtain ⟨x, -, hx⟩ := List.mem_map.1 hrow
    rw [← hx]
    exact classPaddedIds_length _ _ _ h
  · intro row hrow
    simp only [preprocess_classification_tokens, classCore] at hrow
    obtain ⟨y, hy, hxy⟩ := List.mem_map.1 hrow
    obtain ⟨x, -, hx⟩ := List.mem_map.1 hy
    rw [← hxy, List.length_map, ← hx]
    exact classPaddedIds_length _ _ _ h

theorem processNerLine_noneMap (tk : Tokenizer) (M : Nat) (tr t : String)
    (tls : List String) :
    processNerLine tk M tr none t tls =
      some ⟨nerPaddedIds tk M t tls, nerPaddedMask tk M t tls,
            nerTrailMask tk M tr t tls,
            Sum.inl (nerPaddedLabels tk M tr t tls)⟩ := rfl

theorem processAllLines_noneMap_isSome (tk : Tokenizer) (M : Nat) (tr : String)
    (ps : List (String × List String)) :
    (processAllLines tk M tr none ps).isSome = true := by
  induction ps with
  | nil => rfl
  | cons p ps ih =>
    obtain ⟨rs, hrs⟩ := Option.isSome_iff_exists.1 ih
    simp [processAllLines, processNerLine_noneMap, hrs]

theorem mask_row_iff (xs : List Nat) (j : Nat)
    (hj : j < (xs.map (fun x => min 1 x)).length) (hj2 : j < xs.length) :
    (xs.map (fun x => min 1 x)).get ⟨j, hj⟩ = 1 ↔ xs.get ⟨j, hj2⟩ ≠ 0 := by
  simp only [List.get_eq_getElem, List.getElem_map]
  exact min_one_eq_one_iff _

/-! ## Claims -/

/-- Claim C1 (code-bug evaluation): with `labels=None` the source sets
`labels = ["O"] * len(text)` — one placeholder string per LINE, not one tag
per word — and `zip(words, "O")` then pairs only the first word with a tag,
so only the first word of each line is encoded.  On the line
`"hello world"` (identity word-piece split, ids hello↦1, world↦2,
max length 4) the no-labels call encodes only `hello` (`[1,0,0,0]`),
while supplying a genuine per-word tag sequence of the same length as the
word list encodes both words (`[1,2,0,0]`). -/
theorem c1_placeholder_tags_only_first_word :
    preprocess_ner_tokens tkId ["hello world"] 4 none none "X"
      = some (NerResult.noLabels [[1, 0, 0, 0]] [[1, 0, 0, 0]]
          [[true, true, true, true]]) ∧
    preprocess_ner_tokens tkId ["hello world"] 4 (some [["O", "O"]]) none "X"
      = some (NerResult.withLabels [[1, 2, 0, 0]] [[1, 1, 0, 0]]
          [[true, true, true, true]] [Sum.inl ["O", "O", "O", "O"]]) :=
  ⟨by decide, by decide⟩

/-- Claim C2: for every input batch and every (post-clamp) maximum sequence
length, every per-line sequence returned by `preprocess_ner_tokens` — token
ids, attention mask, primary-subword mask, and label sequence — has length
exactly the post-clamp `max_seq_length`. -/
theorem c2_output_lengths (tk : Tokenizer) (text : List String) (msl : Nat)
    (labels : Option (List (List String))) (lmap : Option (List (String × Nat)))
    (tr : String) (r : NerResult)
    (h : preprocess_ner_tokens tk text msl labels lmap tr = some r) :
    (∀ row ∈ r.idsAll, row.length = clampMaxLen msl) ∧
    (∀ row ∈ r.maskAll, row.length = clampMaxLen msl) ∧
    (∀ row ∈ r.trailAll, row.length = clampMaxLen msl) ∧
    (∀ ls ∈ r.labelsAll, sumLen ls = clampMaxLen msl) :=
  ner_output_lengths tk text msl labels lmap tr r h

/-- Witness for C2 at a concrete input: `text = ["hello"]`, `labels = None`,
`max_seq_length = 2`, identity word-piece split. -/
theorem c2_output_lengths_witness :
    (∀ row ∈ (NerResult.noLabels [[1, 0]] [[1, 0]]
        [[true, true]]).idsAll, row.length = clampMaxLen 2) ∧
    (∀ row ∈ (NerResult.noLabels [[1, 0]] [[1, 0]]
        [[true, true]]).maskAll, row.length = clampMaxLen 2) ∧
    (∀ row ∈ (NerResult.noLabels [[1, 0]] [[1, 0]]
        [[true, true]]).trailAll, row.length = clampMaxLen 2) ∧
    (∀ ls ∈ (NerResult.noLabels [[1, 0]] [[1, 0]]
        [[true, true]]).labelsAll, sumLen ls = clampMaxLen 2) :=
  c2_output_lengths tkId ["hello"] 2 none none "X" _ (by decide)

/-- Claim C3: for each (word, tag) pair the first sub-word piece keeps the
word's tag and every subsequent piece gets the trailing-piece sentinel, and
the assignment never leaks into the next word (each word's contribution
depends only on its own pair and the contributions are concatenated); in
the spec's scenario — line `"playing football"`, tags `["VERB","NOUN"]`,
`"playing"` split into `["play","##ing"]` — the flat tag sequence before
padding is `["VERB","X","NOUN"]` and the primary-subword mask before
padding is `[true, false, true]`. -/
theorem c3_tag_alignment :
    (∀ (wp : String → List String) (tr : String) (pair : String × String)
        (ps : List (String × String)),
      lineLabels wp tr (pair :: ps)
        = wordPieceLabels tr pair.2 (wp pair.1) ++ lineLabels wp tr ps) ∧
    (∀ (tr tag s : String) (rest : List String),
      wordPieceLabels tr tag (s :: rest)
        = tag :: List.replicate rest.length tr) ∧
    nerLabels0 tkScenario "X" "playing football" ["VERB", "NOUN"]
      = ["VERB", "X", "NOUN"] ∧
    nerTrailMask tkScenario 3 "X" "playing football" ["VERB", "NOUN"]
      = [true, false, true] :=
  ⟨fun _ _ _ _ => rfl, wordPieceLabels_cons, by decide, by decide⟩

/-- Claim C6: `preprocess_ner_tokens` returns the 4-tuple form exactly when
the caller supplied a `labels` argument, and the 3-tuple form when
`labels` is `None`. -/
theorem c6_return_arity (tk : Tokenizer) (text : List String) (msl : Nat)
    (labels : Option (List (List String))) (lmap : Option (List (String × Nat)))
    (tr : String) (r : NerResult)
    (h : preprocess_ner_tokens tk text msl labels lmap tr = some r) :
    r.hasLabels = labels.isSome := by
  obtain ⟨-, -, -, -, -, -, harity⟩ :=
    preprocess_ner_tokens_some tk text msl labels lmap tr r h
  exact harity

/-- Witness for C6: `labels = None` on one concrete line yields the 3-tuple
form. -/
theorem c6_return_arity_witness :
    (NerResult.noLabels [[1, 0]] [[1, 0]] [[true, true]]).hasLabels
      = (none : Option (List (List String))).isSome :=
  c6_return_arity tkId ["hello"] 2 none none "X" _ (by decide)

/-- Claim C7: for every sampling-strategy name other than `"random"`,
`"sequential"` or `"distributed"`, `create_data_loader` fails with the
invalid-sampling-strategy `ValueError` — uniformly in all data inputs, so no
batching view (`DataLoader`) is ever built — and for the three accepted
names it does not raise. -/
theorem c7_sampling_strategy (ids imask : List (List Nat))
    (lids : Option (List (List Nat))) (m : String) (bs : Nat) :
    (m ≠ "random" → m ≠ "sequential" → m ≠ "distributed" →
      create_data_loader ids imask lids m bs
        = Except.error invalidSampleMethodMsg) ∧
    ((m = "random" ∨ m = "sequential" ∨ m = "distributed") →
      ∃ dl, create_data_loader ids imask lids m bs = Except.ok dl) := by
  constructor
  · intro h1 h2 h3
    simp [create_data_loader, h1, h2, h3]
  · rintro (rfl | rfl | rfl) <;> exact ⟨_, rfl⟩

/-- Witness for C7: the unknown name `"foo"` errors; `"random"` succeeds. -/
theorem c7_sampling_strategy_witness :
    create_data_loader [] [] none "foo" 3
      = Except.error invalidSampleMethodMsg ∧
    ∃ dl, create_data_loader [] [] none "random" 3 = Except.ok dl :=
  ⟨(c7_sampling_strategy [] [] none "foo" 3).1 (by decide) (by decide)
      (by decide),
   (c7_sampling_strategy [] [] none "random" 3).2 (Or.inl rfl)⟩

/-- Claim C8: `parallelize_model` returns the model unmodified whenever
`num_devices < 2`, and it is idempotent: applying it a second time with the
same `num_devices` to its own result changes nothing. -/
theorem c8_parallelize_idempotent (model : TorchModule) (n : Int) :
    (n < 2 → parallelize_model model n = model) ∧
    parallelize_model (parallelize_model model n) n
      = parallelize_model model n := by
  constructor
  · intro h
    simp [parallelize_model, h]
  · by_cases h : n < 2
    · simp [parallelize_model, h]
    · cases model <;> simp [parallelize_model, h]

/-- Witness for C8 at concrete inputs: one device is a no-op, and wrapping
for three devices twice equals wrapping once. -/
theorem c8_parallelize_idempotent_witness :
    parallelize_model (TorchModule.base 0) 1 = TorchModule.base 0 ∧
    parallelize_model (parallelize_model (TorchModule.base 0) 3) 3
      = parallelize_model (TorchModule.base 0) 3 :=
  ⟨(c8_parallelize_idempotent (TorchModule.base 0) 1).1 (by decide),
   (c8_parallelize_idempotent (TorchModule.base 0) 3).2⟩

/-- Claim C10: an empty label map behaves exactly like `label_map=None`
(Python dict truthiness): the call returns the unmapped string tags and can
never fail with a key-lookup error; a lookup failure is possible only for a
non-empty map. -/
theorem c10_empty_label_map (tk : Tokenizer) (text : List String) (msl : Nat)
    (labels : Option (List (List String))) (tr : String) :
    preprocess_ner_tokens tk text msl labels (some []) tr
      = preprocess_ner_tokens tk text msl labels none tr ∧
    (preprocess_ner_tokens tk text msl labels (some []) tr).isSome = true := by
  constructor
  · unfold preprocess_ner_tokens
    rw [processAllLines_emptyMap]
  · unfold preprocess_ner_tokens
    rw [processAllLines_emptyMap]
    obtain ⟨rs, hrs⟩ := Option.isSome_iff_exists.1
      (processAllLines_noneMap_isSome tk (clampMaxLen msl) tr
        (text.zip (nerLabelLists text labels)))
    rw [hrs]
    cases labels <;> simp

/-- Claim C4: in every sequence returned by `preprocess_ner_tokens`, a
position of the primary-subword mask is true iff the (possibly padded) tag at
that position is not the trailing-piece sentinel; consequently (whenever the
sentinel differs from the pad tag `"O"`) every padding position is marked
primary (true) even though its attention-mask value is 0. -/
theorem c4_trailing_mask_iff (tk : Tokenizer) (text : List String) (msl : Nat)
    (labels : Option (List (List String))) (lmap : Option (List (String × Nat)))
    (tr : String) (r : NerResult)
    (h : preprocess_ner_tokens tk text msl labels lmap tr = some r) :
    ∃ rows : List NerRow, r.maskAll = rows.map NerRow.input_mask ∧
      r.trailAll = rows.map NerRow.trailing_mask ∧
      ∀ row ∈ rows, ∃ t tls,
        processNerLine tk (clampMaxLen msl) tr lmap t tls = some row ∧
        (∀ j (h1 : j < row.trailing_mask.length)
            (h2 : j < (nerPaddedLabels tk (clampMaxLen msl) tr t tls).length),
          row.trailing_mask.get ⟨j, h1⟩ = true ↔
            (nerPaddedLabels tk (clampMaxLen msl) tr t tls).get ⟨j, h2⟩ ≠ tr) ∧
        (tr ≠ "O" →
          row.trailing_mask.drop (nerIds0 tk (clampMaxLen msl) t tls).length
              = List.replicate (nerPadN tk (clampMaxLen msl) t tls) true ∧
          row.input_mask.drop (nerIds0 tk (clampMaxLen msl) t tls).length
              = List.replicate (nerPadN tk (clampMaxLen msl) t tls) 0) := by
  obtain ⟨rows, hp, -, hmask, htrail, -, -⟩ :=
    preprocess_ner_tokens_some tk text msl labels lmap tr r h
  refine ⟨rows, hmask, htrail, ?_⟩
  intro row hrow
  obtain ⟨p, -, hline⟩ :=
    processAllLines_mem tk (clampMaxLen msl) tr lmap _ rows hp row hrow
  obtain ⟨hpids, hpmask, hptrail, -⟩ :=
    processNerLine_eq_some tk (clampMaxLen msl) tr lmap p.1 p.2 row hline
  refine ⟨p.1, p.2, hline, ?_, ?_⟩
  · intro j h1 h2
    revert h1
    rw [hptrail]
    intro h1
    exact nerTrailMask_get_iff tk (clampMaxLen msl) tr p.1 p.2 j h1 h2
  · intro hO
    constructor
    · rw [hptrail]
      exact nerTrailMask_drop tk (clampMaxLen msl) tr p.1 p.2 hO
    · rw [hpmask]
      exact nerPaddedMask_drop tk (clampMaxLen msl) p.1 p.2

/-- Witness for C4 at a concrete input: `text = ["hello"]`, `labels = None`,
`max_seq_length = 2`, sentinel `"X"`. -/
theorem c4_trailing_mask_iff_witness :
    ∃ rows : List NerRow, (NerResult.noLabels [[1, 0]] [[1, 0]] [[true, true]]).maskAll
        = rows.map NerRow.input_mask ∧
      (NerResult.noLabels [[1, 0]] [[1, 0]] [[true, true]]).trailAll
        = rows.map NerRow.trailing_mask ∧
      ∀ row ∈ rows, ∃ t tls,
        processNerLine tkId (clampMaxLen 2) "X" none t tls = some row ∧
        (∀ j (h1 : j < row.trailing_mask.length)
            (h2 : j < (nerPaddedLabels tkId (clampMaxLen 2) "X" t tls).length),
          row.trailing_mask.get ⟨j, h1⟩ = true ↔
            (nerPaddedLabels tkId (clampMaxLen 2) "X" t tls).get ⟨j, h2⟩ ≠ "X") ∧
        ("X" ≠ "O" →
          row.trailing_mask.drop (nerIds0 tkId (clampMaxLen 2) t tls).length
              = List.replicate (nerPadN tkId (clampMaxLen 2) t tls) true ∧
          row.input_mask.drop (nerIds0 tkId (clampMaxLen 2) t tls).length
              = List.replicate (nerPadN tkId (clampMaxLen 2) t tls) 0) :=
  c4_trailing_mask_iff tkId ["hello"] 2 none none "X"
    (NerResult.noLabels [[1, 0]] [[1, 0]] [[true, true]]) (by decide)

/-- Claim C5: for every requested maximum length above 512 both
preprocessors behave exactly as if 512 had been requested (clamping, never
failing), and every returned sequence then has length exactly 512. -/
theorem c5_max_len_clamp (tk : Tokenizer) (toks : List (List String))
    (text : List String) (msl : Nat) (labels : Option (List (List String)))
    (lmap : Option (List (String × Nat))) (tr : String)
    (h : msl > BERT_MAX_LEN) :
    preprocess_classification_tokens tk toks msl
      = preprocess_classification_tokens tk toks BERT_MAX_LEN ∧
    (∀ row ∈ (preprocess_classification_tokens tk toks msl).1,
      row.length = BERT_MAX_LEN) ∧
    (∀ row ∈ (preprocess_classification_tokens tk toks msl).2,
      row.length = BERT_MAX_LEN) ∧
    preprocess_ner_tokens tk text msl labels lmap tr
      = preprocess_ner_tokens tk text BERT_MAX_LEN labels lmap tr ∧
    (∀ r, preprocess_ner_tokens tk text msl labels lmap tr = some r →
      (∀ row ∈ r.idsAll, row.length = BERT_MAX_LEN) ∧
      (∀ row ∈ r.maskAll, row.length = BERT_MAX_LEN) ∧
      (∀ row ∈ r.trailAll, row.length = BERT_MAX_LEN) ∧
      (∀ ls ∈ r.labelsAll, sumLen ls = BERT_MAX_LEN)) := by
  have hc : clampMaxLen msl = BERT_MAX_LEN := clampMaxLen_of_gt msl h
  have hc2 : clampMaxLen BERT_MAX_LEN = BERT_MAX_LEN := by
    unfold clampMaxLen
    simp
  have h2c : 2 ≤ clampMaxLen msl := by
    rw [hc]
    decide
  refine ⟨?_, ?_, ?_, ?_, ?_⟩
  · unfold preprocess_classification_tokens
    rw [hc, hc2]
  · have hlen := (class_output_lengths tk toks msl h2c).1
    rw [hc] at hlen
    exact hlen
  · have hlen := (class_output_lengths tk toks msl h2c).2
    rw [hc] at hlen
    exact hlen
  · unfold preprocess_ner_tokens
    rw [hc, hc2]
  · intro r hr
    have hlen := ner_output_lengths tk text msl labels lmap tr r hr
    rw [hc] at hlen
    exact hlen

/-- Witness for C5: requesting `max_seq_length = 1000` on concrete inputs
behaves as requesting 512. -/
theorem c5_max_len_clamp_witness :
    preprocess_classification_tokens tkId [["a"]] 1000
      = preprocess_classification_tokens tkId [["a"]] BERT_MAX_LEN ∧
    (∀ row ∈ (preprocess_classification_tokens tkId [["a"]] 1000).1,
      row.length = BERT_MAX_LEN) ∧
    (∀ row ∈ (preprocess_classification_tokens tkId [["a"]] 1000).2,
      row.length = BERT_MAX_LEN) ∧
    preprocess_ner_tokens tkId ["hello"] 1000 none none "X"
      = preprocess_ner_tokens tkId ["hello"] BERT_MAX_LEN none none "X" ∧
    (∀ r, preprocess_ner_tokens tkId ["hello"] 1000 none none "X" = some r →
      (∀ row ∈ r.idsAll, row.length = BERT_MAX_LEN) ∧
      (∀ row ∈ r.maskAll, row.length = BERT_MAX_LEN) ∧
      (∀ row ∈ r.trailAll, row.length = BERT_MAX_LEN) ∧
      (∀ ls ∈ r.labelsAll, sumLen ls = BERT_MAX_LEN)) :=
  c5_max_len_clamp tkId [["a"]] ["hello"] 1000 none none "X" (by decide)

/-- Counterexample for Claim C9 as stated: at the (post-clamp) maximum
length 1, Python's `x[0 : max_len - 2]` is the negative slice `x[0:-1]`, so
the output row for `["a","b","c"]` is `[CLS, a, b, SEP]` of length 4, not a
padded row of length 1. -/
theorem c9_counterexample :
    ¬ (∀ row ∈ (preprocess_classification_tokens tkCls [["a", "b", "c"]] 1).1,
        row.length = 1) := by decide

/-- Claim C9 amended: for every batch and every requested maximum length of
at least 2 (so post-clamp at least 2), each output row is the start marker,
the first `max_len − 2` body tokens and the end marker mapped to ids and
right-padded with 0 to length exactly `max_len` (post-clamp), the attention
mask is 1 exactly at the positions whose token id is nonzero, and both
returned lists have the same outer length as the input batch. -/
theorem c9_classification_shape (tk : Tokenizer) (toks : List (List String))
    (max_len : Nat) (h : 2 ≤ max_len) :
    (preprocess_classification_tokens tk toks max_len).1.length = toks.length ∧
    (preprocess_classification_tokens tk toks max_len).2.length = toks.length ∧
    (∀ i (ht : i < toks.length)
        (h1 : i < (preprocess_classification_tokens tk toks max_len).1.length)
        (h2 : i < (preprocess_classification_tokens tk toks max_len).2.length),
      (preprocess_classification_tokens tk toks max_len).1.get ⟨i, h1⟩
          = specClassificationRow tk (clampMaxLen max_len) (toks.get ⟨i, ht⟩) ∧
      ((preprocess_classification_tokens tk toks max_len).1.get ⟨i, h1⟩).length
          = clampMaxLen max_len ∧
      (∀ j (j2 : j <
            ((preprocess_classification_tokens tk toks max_len).2.get ⟨i, h2⟩).length)
          (j1 : j <
            ((preprocess_classification_tokens tk toks max_len).1.get ⟨i, h1⟩).length),
        ((preprocess_classification_tokens tk toks max_len).2.get ⟨i, h2⟩).get ⟨j, j2⟩
            = 1 ↔
          ((preprocess_classification_tokens tk toks max_len).1.get ⟨i, h1⟩).get ⟨j, j1⟩
            ≠ 0)) := by
  have hM : 2 ≤ clampMaxLen max_len := clampMaxLen_ge_two max_len h
  simp only [preprocess_classification_tokens, classCore, List.length_map,
    List.get_eq_getElem, List.getElem_map]
  refine ⟨trivial, trivial, ?_⟩
  intro i ht h1 h2
  refine ⟨?_, ?_, ?_⟩
  · exact classPaddedIds_eq_spec tk (clampMaxLen max_len) _ hM
  · exact classPaddedIds_length tk (clampMaxLen max_len) _ hM
  · intro j j2 j1
    exact min_one_eq_one_iff _

/-- Witness for the amended C9 at a concrete input. -/
theorem c9_classification_shape_witness :
    (preprocess_classification_tokens tkCls [["a", "b", "c"]] 4).1.length
        = [["a", "b", "c"]].length ∧
    (preprocess_classification_tokens tkCls [["a", "b", "c"]] 4).2.length
        = [["a", "b", "c"]].length ∧
    (∀ i (ht : i < [["a", "b", "c"]].length)
        (h1 : i < (preprocess_classification_tokens tkCls [["a", "b", "c"]] 4).1.length)
        (h2 : i < (preprocess_classification_tokens tkCls [["a", "b", "c"]] 4).2.length),
      (preprocess_classification_tokens tkCls [["a", "b", "c"]] 4).1.get ⟨i, h1⟩
          = specClassificationRow tkCls (clampMaxLen 4) ([["a", "b", "c"]].get ⟨i, ht⟩) ∧
      ((preprocess_classification_tokens tkCls [["a", "b", "c"]] 4).1.get ⟨i, h1⟩).length
          = clampMaxLen 4 ∧
      (∀ j (j2 : j <
            ((preprocess_classification_tokens tkCls [["a", "b", "c"]] 4).2.get ⟨i, h2⟩).length)
          (j1 : j <
            ((preprocess_classification_tokens tkCls [["a", "b", "c"]] 4).1.get ⟨i, h1⟩).length),
        ((preprocess_classification_tokens tkCls [["a", "b", "c"]] 4).2.get ⟨i, h2⟩).get ⟨j, j2⟩
            = 1 ↔
          ((preprocess_classification_tokens tkCls [["a", "b", "c"]] 4).1.get ⟨i, h1⟩).get ⟨j, j1⟩
            ≠ 0)) :=
  c9_classification_shape tkCls [["a", "b", "c"]] 4 (by decide)

end CommonNer
